import Mathlib

/-!
Shallow embedding of the state-diagram model builder
(`src/tools/StateModel.py` and `src/tools/ModelBuilder.py`).

Python-2 objects are modelled with an explicit heap: a `State` object is a
`StateD` value stored at an index (`StateId`) of a `Heap`, so that the
aliasing of `State` references between `state_names`, `top_level`, graph
nodes and `source`/`destination` lists is preserved.  Python strings carry
an `isBytes` flag distinguishing `str` from `unicode` (Python 2), because
`check_state_exists` behaves differently on the two.  Fallible operations
return `Except`, with the error value carrying the mutated state at the
moment the exception is raised (Python mutates objects in place before an
exception propagates).
-/

/-- A Python 2 string: `isBytes = true` models the `str` type, `false`
models `unicode`.  Equality of contents (`val`) models `==`/dict-key
equality, which in Python 2 identifies `str` and `unicode` of equal text. -/
structure PyStr where
  val : String
  isBytes : Bool
deriving DecidableEq, Repr

/-- A `unicode` literal, as produced by the pygments lexer. -/
def PyStr.uni (s : String) : PyStr := ⟨s, false⟩

/-- A `str` (byte string) literal. -/
def PyStr.bytes (s : String) : PyStr := ⟨s, true⟩

/-- Exception classes that the modelled code can raise. -/
inductive PyErr where
  | nameError
  | typeError
  | attributeError
  | indexError
  | notImplementedError
  | recursionError
deriving DecidableEq, Repr

/-- Heap index of a `State` object. -/
abbrev StateId := Nat

/-- `Transition` from StateModel.py: attribute list plus lists of source and
destination `State` references. -/
structure Transition where
  attrs : List String
  source : List StateId
  dest : List StateId
deriving DecidableEq, Repr

/-- The `StateDiagram` fields.  `states` is declared in `__init__` but never
appended to anywhere in the source, so it stays empty.  `nodes`/`edges` are
the inherited networkx `DiGraph` node set and directed-edge set. -/
structure Diagram where
  states : List StateId := []
  top_level : List StateId := []
  state_names : List (String × StateId) := []
  transitions : List Transition := []
  nodes : List StateId := []
  edges : List (StateId × StateId) := []
deriving DecidableEq, Repr

/-- `State` object data.  `parent` is whatever value was passed as
`parent_state`: in the builder flow a state *name* (`Sum.inl`), on direct
construction possibly another `State` reference (`Sum.inr`), or `None`. -/
structure StateD where
  name : String
  attrs : List String
  substates : Diagram
  num_substates : Nat
  active : Bool
  source : List StateId
  destination : List StateId
  parent : Option (String ⊕ StateId)
deriving DecidableEq, Repr

instance : Inhabited StateD :=
  ⟨{ name := "", attrs := [], substates := {}, num_substates := 0,
     active := false, source := [], destination := [], parent := none }⟩

abbrev Heap := List StateD

/-- A value that can be passed where the source accepts a state id or a
`State` reference (`get_state`, `check_state_exists`). -/
inductive PyVal where
  | str (s : PyStr)
  | st (sid : StateId)
deriving DecidableEq, Repr

/-- Python dict lookup on `state_names`. -/
def lookupName : List (String × StateId) → String → Option StateId
  | [], _ => none
  | e :: rest, k => if e.1 = k then some e.2 else lookupName rest k

/-- Python dict assignment `state_names[k] = v`. -/
def insertName : List (String × StateId) → String → StateId → List (String × StateId)
  | [], k, v => [(k, v)]
  | e :: rest, k, v => if e.1 = k then (k, v) :: rest else e :: insertName rest k v

/-- In-place mutation of the `State` object at `sid`. -/
def updState (h : Heap) (sid : StateId) (f : StateD → StateD) : Heap :=
  h.set sid (f (h.getD sid default))

/-- Python truthiness of an optional string (`None` and `''` are falsy). -/
def optTruthy : Option String → Bool
  | none => false
  | some s => !s.isEmpty

/-- networkx `add_node`: appends the node if not already present. -/
def addNodeList (ns : List StateId) (n : StateId) : List StateId :=
  if n ∈ ns then ns else ns ++ [n]

def addNodeG (g : Diagram) (n : StateId) : Diagram :=
  { g with nodes := addNodeList g.nodes n }

/-- networkx `add_edge`: adds both endpoints as nodes if absent, then the
directed edge (a repeated edge only updates its attribute dict). -/
def addEdgeG (g : Diagram) (u v : StateId) : Diagram :=
  let g := addNodeG (addNodeG g u) v
  if (u, v) ∈ g.edges then g else { g with edges := g.edges ++ [(u, v)] }

/-- networkx `add_edges_from`. -/
def addEdgesFromG (g : Diagram) (es : List (StateId × StateId)) : Diagram :=
  es.foldl (fun g e => addEdgeG g e.1 e.2) g

/-- networkx `remove_node`: drops the node and every incident edge. -/
def removeNodeG (g : Diagram) (n : StateId) : Diagram :=
  { g with nodes := g.nodes.filter (fun m => decide (m ≠ n)),
           edges := g.edges.filter (fun e => decide (e.1 ≠ n) && decide (e.2 ≠ n)) }

/-- networkx `subgraph(nbunch)`: the induced subgraph on the members of
`nbunch` that are nodes of `g`.  The result is a fresh `self.__class__()`
instance, so its model-level lists are empty. -/
def subgraphG (g : Diagram) (bunch : List StateId) : Diagram :=
  let ns := bunch.foldl (fun acc n => if n ∈ g.nodes ∧ n ∉ acc then acc ++ [n] else acc) []
  { nodes := ns,
    edges := g.edges.filter (fun e => decide (e.1 ∈ ns) && decide (e.2 ∈ ns)) }

/-- `StateDiagram.get_state`: returns the argument if it is already a state
reference, otherwise resolves the name via `state_names`, raising
`NameError` when absent. -/
def get_state (d : Diagram) : PyVal → Except PyErr StateId
  | .st sid => .ok sid
  | .str s =>
    match lookupName d.state_names s.val with
    | some sid => .ok sid
    | none => .error .nameError

/-- `StateDiagram.check_state_exists`.  The source reads
`isinstance(state_id, str) or isinstance(state_id, unicode) and state_id in
self.state_names`, in which `and` binds tighter than `or`: any byte-`str`
argument therefore yields `True` regardless of membership.  A string value
is never a node of the graph in this model, so the `has_node` fallback is
false for strings. -/
def check_state_exists (d : Diagram) : PyVal → Bool
  | .str s =>
    if s.isBytes || (!s.isBytes && (lookupName d.state_names s.val).isSome) then true
    else false
  | .st sid => sid ∈ d.nodes

/-- `new_state.add_attribute(attrs)` guarded by `if attrs:`. -/
def attachAttr (attrs : Option String) (h : Heap) (sid : StateId) : Heap :=
  match attrs with
  | some a => if a.isEmpty then h else updState h sid (fun s => { s with attrs := s.attrs ++ [a] })
  | none => h

/-- `State.add_substate` on the parent object at `pid`: adds the child to the
parent's `substates` graph and top-level list and bumps `num_substates`. -/
def add_substate (h : Heap) (pid : StateId) (sid : StateId) : Heap :=
  updState h pid (fun ps =>
    { ps with
      substates := { ps.substates with
                      nodes := addNodeList ps.substates.nodes sid,
                      top_level := ps.substates.top_level ++ [sid] },
      num_substates := ps.num_substates + 1 })

/-- `StateDiagram.add_state`.  When the name already exists the existing
state is merged into (attributes appended); otherwise a fresh `State` is
allocated, registered in `state_names`, and either nested under the parent
or appended to the diagram's top level. -/
def add_state (d : Diagram) (h : Heap) (state_name : PyStr)
    (parent_state : Option String) (attrs : Option String) :
    Except (PyErr × Diagram × Heap) (Diagram × Heap) :=
  if check_state_exists d (.str state_name) then
    match get_state d (.str state_name) with
    | .error e => .error (e, d, h)
    | .ok sid => .ok (d, attachAttr attrs h sid)
  else
    let sid := h.length
    let st : StateD :=
      { name := state_name.val, attrs := [], substates := {}, num_substates := 0,
        active := false, source := [], destination := [],
        parent := parent_state.map Sum.inl }
    let h := h ++ [st]
    let d := { d with state_names := insertName d.state_names state_name.val sid }
    if optTruthy parent_state then
      match get_state d (.str (PyStr.uni (parent_state.getD ""))) with
      | .error e => .error (e, d, h)
      | .ok pid => .ok (d, attachAttr attrs (add_substate h pid sid) sid)
    else
      let d := { (addNodeG d sid) with top_level := d.top_level ++ [sid] }
      .ok (d, attachAttr attrs h sid)

/-- `StateDiagram.add_state_attr`. -/
def add_state_attr (d : Diagram) (h : Heap) (state_id : PyVal) (attrVal : String) :
    Except PyErr Heap :=
  match get_state d state_id with
  | .error e => .error e
  | .ok sid => .ok (updState h sid (fun s => { s with attrs := s.attrs ++ [attrVal] }))

/-- `StateDiagram.add_transition`.  Sentinel `[*]` endpoints are rewritten to
`START`/`END`, missing endpoints are auto-created (subject to
`check_state_exists`), the `Transition` is appended to `self.transitions`,
the directed edge is recorded in the parent's `substates` graph (or the
diagram's own graph), and both endpoints' `source`/`destination` lists are
updated. -/
def add_transition (d : Diagram) (h : Heap) (source dest : PyStr)
    (parent_state : Option String) (attributes : Option String) :
    Except (PyErr × Diagram × Heap) (Diagram × Heap) :=
  let source := if source.val = "[*]" then PyStr.uni "START" else source
  let dest := if dest.val = "[*]" then PyStr.uni "END" else dest
  let step1 : Except (PyErr × Diagram × Heap) (Diagram × Heap) :=
    if !check_state_exists d (.str source) then add_state d h source none none
    else .ok (d, h)
  match step1 with
  | .error e => .error e
  | .ok (d, h) =>
    let step2 : Except (PyErr × Diagram × Heap) (Diagram × Heap) :=
      if !check_state_exists d (.str dest) then add_state d h dest none none
      else .ok (d, h)
    match step2 with
    | .error e => .error e
    | .ok (d, h) =>
      match get_state d (.str source) with
      | .error e => .error (e, d, h)
      | .ok sid =>
        match get_state d (.str dest) with
        | .error e => .error (e, d, h)
        | .ok did =>
          let t : Transition :=
            { attrs := match attributes with
                       | some a => if a.isEmpty then [] else [a]
                       | none => [],
              source := [sid], dest := [did] }
          let d := { d with transitions := d.transitions ++ [t] }
          let afterEdge : Except (PyErr × Diagram × Heap) (Diagram × Heap) :=
            if optTruthy parent_state then
              match get_state d (.str (PyStr.uni (parent_state.getD ""))) with
              | .error e => .error (e, d, h)
              | .ok pid =>
                .ok (d, updState h pid (fun ps => { ps with substates := addEdgeG ps.substates sid did }))
            else
              .ok (addEdgeG d sid did, h)
          match afterEdge with
          | .error e => .error e
          | .ok (d, h) =>
            let h := updState h sid (fun s => { s with destination := s.destination ++ [did] })
            let h := updState h did (fun s => { s with source := s.source ++ [sid] })
            .ok (d, h)

/-- Python truthiness of an optional filter argument of `get_transitions`. -/
def pyValTruthy : Option PyVal → Bool
  | none => false
  | some (.str s) => !s.val.isEmpty
  | some (.st _) => true

/-- `StateDiagram.get_transitions`: conjunctive filtering by source and
destination. -/
def get_transitions (d : Diagram) (source dest : Option PyVal) :
    Except PyErr (List Transition) :=
  let tl := d.transitions
  match (if pyValTruthy source then (source.getD (.st 0)) |> (fun v => some (get_state d v)) else none) with
  | some (.error e) => .error e
  | some (.ok sid) =>
    let tl := tl.filter (fun t => decide (sid ∈ t.source))
    match (if pyValTruthy dest then some (get_state d (dest.getD (.st 0))) else none) with
    | some (.error e) => .error e
    | some (.ok did) => .ok (tl.filter (fun t => decide (did ∈ t.dest)))
    | none => .ok tl
  | none =>
    match (if pyValTruthy dest then some (get_state d (dest.getD (.st 0))) else none) with
    | some (.error e) => .error e
    | some (.ok did) => .ok (tl.filter (fun t => decide (did ∈ t.dest)))
    | none => .ok tl

/-- Local start test: `len(self.source) == 0`. -/
def localStart (s : StateD) : Bool := s.source.length == 0

/-- Local end test: `len(self.destination) == 0`. -/
def localEnd (s : StateD) : Bool := s.destination.length == 0

/-- Python truthiness of the `parent` field (`None` and `''` are falsy; a
`State` reference is truthy). -/
def parentTruthy : Option (String ⊕ StateId) → Bool
  | none => false
  | some (.inl s) => !s.isEmpty
  | some (.inr _) => true

/-- `State.is_start_state`.  The recursive global-scope branch in the source
reads `self.parent.is_start_state(gloabl_scope=True)`: when `parent` is a
string the attribute lookup raises `AttributeError`; when it is a `State`
the misspelled keyword raises `TypeError`.  Short-circuit `or` means the
branch is only reached when the local test is false. -/
def is_start_state (h : Heap) (sid : StateId) (global_scope : Bool) :
    Except PyErr Bool :=
  let s := h.getD sid default
  let ls := localStart s
  if global_scope && parentTruthy s.parent then
    if ls then .ok true
    else
      match s.parent with
      | some (.inl _) => .error .attributeError
      | some (.inr _) => .error .typeError
      | none => .error .attributeError
  else .ok ls

/-- `State.is_end_state`.  The global-scope branch recurses into the parent
with `global_scope=True`; a string-valued `parent` raises `AttributeError`
at the attribute lookup.  `fuel` bounds the recursion (Python would raise
`RecursionError` on a cyclic parent chain). -/
def is_end_state (h : Heap) : Nat → StateId → Bool → Except PyErr Bool
  | 0, _, _ => .error .recursionError
  | fuel + 1, sid, global_scope =>
    let s := h.getD sid default
    let le := localEnd s
    if global_scope && parentTruthy s.parent then
      if le then .ok true
      else
        match s.parent with
        | some (.inl _) => .error .attributeError
        | some (.inr pid) => is_end_state h fuel pid true
        | none => .error .attributeError
    else .ok le

/-- One child node of the flattening loop: if the child is locally a start
state, add an edge from each of the superstate's recorded sources; if it is
locally an end state, add an edge to each of the superstate's recorded
destinations (`sub_state.is_start_state()` / `is_end_state()` are the local
forms, cf. `is_start_state_local`). -/
def stitchNode (h : Heap) (sd : StateD) (fl : Diagram) (s : StateId) : Diagram :=
  let ss := h.getD s default
  let fl := if localStart ss then sd.source.foldl (fun g src => addEdgeG g src s) fl else fl
  if localEnd ss then sd.destination.foldl (fun g dd => addEdgeG g s dd) fl else fl

/-- The body of one iteration of the `flatten_graph` loop for a state with
substates, with the recursively flattened child graph passed as `sub`:
stitch every child node per `stitchNode`, merge the child's edges and
remove the superstate node. -/
def stitchAndCollapse (h : Heap) (sd : StateD) (st : StateId) (sub : Diagram)
    (flat : Diagram) : Diagram :=
  removeNodeG (addEdgesFromG (sub.nodes.foldl (stitchNode h sd) flat) sub.edges) st

/-- `StateDiagram.flatten_graph`.  Starts from the induced subgraph on
`top_level` and iterates over a snapshot of its node list (`nodes()`
returns a fresh list in networkx 1.x, so removal during the loop is safe).
`fuel` bounds the recursion into `substates` and exceeds the (finite)
nesting depth in every use below. -/
def flatten_graph : Nat → Heap → Diagram → Diagram
  | 0, _, d => subgraphG d d.top_level
  | fuel + 1, h, d =>
    let flat0 := subgraphG d d.top_level
    flat0.nodes.foldl
      (fun flat st =>
        let sd := h.getD st default
        if 0 < sd.num_substates then
          stitchAndCollapse h sd st (flatten_graph fuel h sd.substates) flat
        else flat)
      flat0

theorem is_start_state_local (h : Heap) (sid : StateId) :
    is_start_state h sid false = .ok (localStart (h.getD sid default)) := by
  simp [is_start_state]

theorem is_end_state_local (h : Heap) (fuel : Nat) (sid : StateId) :
    is_end_state h (fuel + 1) sid false = .ok (localEnd (h.getD sid default)) := by
  simp [is_end_state]

/-!
## ModelBuilder.py

Token kinds from `PlantUML_Lexer`; `TEXT`/`ERROR` are the two ignored
pygments token classes.  Lexer token values are `unicode`, so builder-level
values are plain `String`s wrapped with `PyStr.uni` at every diagram call.
-/

inductive TokKind where
  | STATE | SALIAS | SATTR | SSTART | SEND | TSOURCE | TDEST | TATTR | TEXT | ERROR
deriving DecidableEq, Repr

/-- A `(token, value)` pair as yielded by the lexer. -/
abbrev Tok := TokKind × String

/-- Instance state of a `StateModelBuilder`: token deque, the model diagram
with its object heap, and the superstate scope stack (initialised
`[None]`). -/
structure BState where
  q : List Tok
  dia : Diagram
  heap : Heap
  superstate_stack : List (Option String)
deriving DecidableEq, Repr

/-- Fresh builder state as produced by `__init__`. -/
def initBuilder : BState :=
  { q := [], dia := {}, heap := [], superstate_stack := [none] }

/-- Handler result: an exception carries the builder state at the moment it
was raised (Python objects stay mutated when an exception propagates). -/
abbrev HRes := Except (PyErr × BState) BState

/-- `StateModelBuilder.lookup_state`: declared but unimplemented. -/
def lookup_state (b : BState) : HRes := .error (.notImplementedError, b)

/-- `StateModelBuilder.start_superstate`: consume the `{` delimiter, add the
state into the current scope, then push its name on the scope stack. -/
def start_superstate (state_name : String) (b : BState) : HRes :=
  match b.q with
  | [] => .error (.indexError, b)
  | _ :: q1 =>
    let b1 : BState := { b with q := q1 }
    match b1.superstate_stack.getLast? with
    | none => .error (.indexError, b1)
    | some parent =>
      match add_state b1.dia b1.heap (PyStr.uni state_name) parent none with
      | .error (e, d, hp) => .error (e, { b1 with dia := d, heap := hp })
      | .ok (d, hp) =>
        .ok { b1 with dia := d, heap := hp,
                      superstate_stack := b1.superstate_stack ++ [some state_name] }

/-- `StateModelBuilder.end_superstate`: consume the `}` delimiter and pop the
scope stack (`pop(-1)` on an empty list raises `IndexError`). -/
def end_superstate (b : BState) : HRes :=
  match b.q with
  | [] => .error (.indexError, b)
  | _ :: q1 =>
    let b1 : BState := { b with q := q1 }
    match b1.superstate_stack with
    | [] => .error (.indexError, b1)
    | _ :: _ => .ok { b1 with superstate_stack := b1.superstate_stack.dropLast }

/-- `StateModelBuilder.assign_state`: pop the state name; if the next token
opens a scope, declare a superstate, otherwise add a plain state into the
current scope; then attach a following `SATTR` value if present.  Deque
indexing (`self.q[0]`) and `superstate_stack[-1]` raise `IndexError` when
empty. -/
def assign_state (b : BState) : HRes :=
  match b.q with
  | [] => .error (.indexError, b)
  | (_, state_name) :: q1 =>
    let b1 : BState := { b with q := q1 }
    let afterDecl : HRes :=
      match q1 with
      | [] => .error (.indexError, b1)
      | (k1, _) :: _ =>
        if k1 = TokKind.SSTART then start_superstate state_name b1
        else
          match b1.superstate_stack.getLast? with
          | none => .error (.indexError, b1)
          | some parent =>
            match add_state b1.dia b1.heap (PyStr.uni state_name) parent none with
            | .error (e, d, hp) => .error (e, { b1 with dia := d, heap := hp })
            | .ok (d, hp) => .ok { b1 with dia := d, heap := hp }
    match afterDecl with
    | .error e => .error e
    | .ok b2 =>
      match b2.q with
      | [] => .error (.indexError, b2)
      | (k2, v2) :: q2 =>
        if k2 = TokKind.SATTR then
          let b3 : BState := { b2 with q := q2 }
          match add_state_attr b3.dia b3.heap (.str (PyStr.uni state_name)) v2 with
          | .error e => .error (e, b3)
          | .ok hp => .ok { b3 with heap := hp }
        else .ok b2

/-- `StateModelBuilder.assign_trans`: pop the source value; the next buffered
token must be `TDEST` or the handler raises `AttributeError`; an optional
`TATTR` value is attached; the transition is added with the current
top-of-stack scope (`superstate_stack[-1]` is evaluated before the call and
raises `IndexError` on an empty stack). -/
def assign_trans (b : BState) : HRes :=
  match b.q with
  | [] => .error (.indexError, b)
  | (_, source) :: q1 =>
    let b1 : BState := { b with q := q1 }
    match q1 with
    | [] => .error (.indexError, b1)
    | (k1, dval) :: q2 =>
      if k1 = TokKind.TDEST then
        let b2 : BState := { b1 with q := q2 }
        match q2 with
        | (TokKind.TATTR, av) :: q3 =>
          let b3 : BState := { b2 with q := q3 }
          match b3.superstate_stack.getLast? with
          | none => .error (.indexError, b3)
          | some parent =>
            match add_transition b3.dia b3.heap (PyStr.uni source) (PyStr.uni dval)
                parent (some av) with
            | .error (e, d, hp) => .error (e, { b3 with dia := d, heap := hp })
            | .ok (d, hp) => .ok { b3 with dia := d, heap := hp }
        | _ =>
          match b2.superstate_stack.getLast? with
          | none => .error (.indexError, b2)
          | some parent =>
            match add_transition b2.dia b2.heap (PyStr.uni source) (PyStr.uni dval)
                parent none with
            | .error (e, d, hp) => .error (e, { b2 with dia := d, heap := hp })
            | .ok (d, hp) => .ok { b2 with dia := d, heap := hp }
      else .error (.attributeError, b1)

/-- The four kinds a `StateModelBuilder` registers handlers for. -/
def actionKinds : List TokKind :=
  [TokKind.STATE, TokKind.SALIAS, TokKind.SEND, TokKind.TSOURCE]

def isActionable (k : TokKind) : Bool := k ∈ actionKinds

/-- The class-level `ignored_tokens` (`Token.Text`, `Token.Error`). -/
def ignoredTok (k : TokKind) : Bool := k = TokKind.TEXT || k = TokKind.ERROR

/-- The per-kind handler table of `StateModelBuilder`, for the ordinary case
in which the class-level dict is bound to the builder doing the parsing
(true whenever the parsing builder is the most recently constructed one;
the cross-instance rebinding is modelled separately below). -/
def dispatch (k : TokKind) (b : BState) : HRes :=
  match k with
  | TokKind.STATE => assign_state b
  | TokKind.SALIAS => lookup_state b
  | TokKind.SEND => end_superstate b
  | TokKind.TSOURCE => assign_trans b
  | _ => .ok b

/-- The post-stream flush loop of `ModelBuilder.parse`: while actionable
tokens are pending, invoke the handler when the buffer head is actionable;
otherwise the source pops the head and evaluates
`"Non actionable token " + self.q.popleft() + ...`, concatenating a `str`
with a tuple — which raises `TypeError`. -/
def flushPending : BState → Nat → HRes
  | b, 0 => .ok b
  | b, p + 1 =>
    match b.q with
    | [] => .error (.indexError, b)
    | (hk, _) :: qrest =>
      if isActionable hk then
        match dispatch hk b with
        | .error e => .error e
        | .ok b2 => flushPending b2 p
      else .error (.typeError, { b with q := qrest })

/-- The main loop of `ModelBuilder.parse`: drop ignored kinds, count
actionable ones, append to the deque, and once more than one actionable
token is pending invoke the head's handler if the head is actionable. -/
def parseLoop : BState → Nat → List Tok → HRes
  | b, pending, [] => flushPending b pending
  | b, pending, t :: ts =>
    if ignoredTok t.1 then parseLoop b pending ts
    else
      let pending1 := if isActionable t.1 then pending + 1 else pending
      let b1 : BState := { b with q := b.q ++ [t] }
      if 1 < pending1 then
        match b1.q with
        | [] => parseLoop b1 pending1 ts
        | (hk, _) :: _ =>
          if isActionable hk then
            match dispatch hk b1 with
            | .error e => .error e
            | .ok b2 => parseLoop b2 (pending1 - 1) ts
          else parseLoop b1 pending1 ts
      else parseLoop b1 pending1 ts

/-- `ModelBuilder.parse` for a single builder: on success the returned
`BState` holds the populated model (`dia`/`heap`). -/
def parse (b : BState) (stream : List Tok) : HRes := parseLoop b 0 stream

/-!
## The class-level shared dispatch table

`StateModelBuilder.action_tokens` is a *class* attribute; `__init__` runs
`StateModelBuilder.action_tokens.update(...)` with the new instance's bound
methods, so every construction rebinds the shared table to the newest
instance.  A `World` holds all constructed instances and the class table
mapping each registered kind to the instance its handler is bound to. -/

structure World where
  instances : List BState := []
  classTable : List (TokKind × Nat) := []
deriving DecidableEq, Repr

/-- Python dict assignment of one key of the class table. -/
def updTable : List (TokKind × Nat) → TokKind → Nat → List (TokKind × Nat)
  | [], k, v => [(k, v)]
  | e :: rest, k, v => if e.1 = k then (k, v) :: rest else e :: updTable rest k v

/-- Python dict lookup in the class table. -/
def tableLookup : List (TokKind × Nat) → TokKind → Option Nat
  | [], _ => none
  | e :: rest, k => if e.1 = k then some e.2 else tableLookup rest k

/-- `StateModelBuilder.__init__`: appends a fresh instance and rebinds the
four registered kinds of the class-level table to it. -/
def mkStateModelBuilder (w : World) : World × Nat :=
  let n := w.instances.length
  let table := actionKinds.foldl (fun t k => updTable t k n) w.classTable
  ({ instances := w.instances ++ [initBuilder], classTable := table }, n)

def getInstB (w : World) (i : Nat) : BState := w.instances.getD i initBuilder

def setInst (w : World) (j : Nat) (b : BState) : World :=
  { w with instances := w.instances.set j b }

abbrev WRes := Except (PyErr × World) World

/-- Invoking `self.action_tokens[kind]()`: the bound method runs on the
instance recorded in the class table, not necessarily on the parsing
instance. -/
def dispatchW (w : World) (k : TokKind) : WRes :=
  match tableLookup w.classTable k with
  | none => .ok w
  | some j =>
    match dispatch k (getInstB w j) with
    | .error (e, bj) => .error (e, setInst w j bj)
    | .ok bj => .ok (setInst w j bj)

/-- The flush loop of `parse`, run by instance `i`, dispatching through the
class table. -/
def flushW : World → Nat → Nat → WRes
  | w, _, 0 => .ok w
  | w, i, p + 1 =>
    match (getInstB w i).q with
    | [] => .error (.indexError, w)
    | (hk, _) :: qrest =>
      if (tableLookup w.classTable hk).isSome then
        match dispatchW w hk with
        | .error e => .error e
        | .ok w2 => flushW w2 i p
      else .error (.typeError, setInst w i { getInstB w i with q := qrest })

/-- The main loop of `parse`, run by instance `i`, dispatching through the
class table (`token in self.action_tokens` consults the same shared
dict). -/
def parseWLoop : World → Nat → Nat → List Tok → WRes
  | w, i, pending, [] => flushW w i pending
  | w, i, pending, t :: ts =>
    if ignoredTok t.1 then parseWLoop w i pending ts
    else
      let pending1 := if (tableLookup w.classTable t.1).isSome then pending + 1 else pending
      let bi := getInstB w i
      let w1 := setInst w i { bi with q := bi.q ++ [t] }
      if 1 < pending1 then
        match (getInstB w1 i).q with
        | [] => parseWLoop w1 i pending1 ts
        | (hk, _) :: _ =>
          if (tableLookup w1.classTable hk).isSome then
            match dispatchW w1 hk with
            | .error e => .error e
            | .ok w2 => parseWLoop w2 i (pending1 - 1) ts
          else parseWLoop w1 i pending1 ts
      else parseWLoop w1 i pending1 ts

/-- `parse` on instance `i` of a world of constructed builders. -/
def parseW (w : World) (i : Nat) (stream : List Tok) : WRes := parseWLoop w i 0 stream

/-- Observable outcome of a single-instance parse. -/
def errOf : HRes → Option PyErr
  | .ok _ => none
  | .error (e, _) => some e

/-- Observable outcome of a world-level parse. -/
def errOfW : WRes → Option PyErr
  | .ok _ => none
  | .error (e, _) => some e

/-- Flattening fixture: top-level `A` (id 0) with an edge to superstate `B`
(id 1) whose child diagram holds exactly `X` (id 2) → `Y` (id 3); `B`'s
recorded outgoing destinations are the parameter `ds`. -/
def c1heap (ds : List Nat) : Heap :=
  [{ name := "A", attrs := [], substates := {}, num_substates := 0, active := false,
     source := [], destination := [1], parent := none },
   { name := "B", attrs := [],
     substates := { top_level := [2, 3], nodes := [2, 3], edges := [(2, 3)] },
     num_substates := 2, active := false, source := [0], destination := ds,
     parent := none },
   { name := "X", attrs := [], substates := {}, num_substates := 0, active := false,
     source := [], destination := [3], parent := some (.inl "B") },
   { name := "Y", attrs := [], substates := {}, num_substates := 0, active := false,
     source := [2], destination := [], parent := some (.inl "B") }]

/-- Root diagram of the flattening fixture. -/
def c1dia : Diagram :=
  { top_level := [0, 1], state_names := [("A", 0), ("B", 1)], nodes := [0, 1],
    edges := [(0, 1)] }

/-! ## Helper lemmas -/

theorem lookupName_insert_self (m : List (String × StateId)) (k : String) (v : StateId) :
    lookupName (insertName m k v) k = some v := by
  induction m with
  | nil => simp [insertName, lookupName]
  | cons e rest ih =>
    by_cases h : e.1 = k
    · simp [insertName, h, lookupName]
    · simp [insertName, h, lookupName, ih]

theorem lookupName_insert_other (m : List (String × StateId)) (k k' : String) (v : StateId)
    (h : k' ≠ k) : lookupName (insertName m k v) k' = lookupName m k' := by
  have hkk' : ¬(k = k') := fun hx => h hx.symm
  induction m with
  | nil => simp [insertName, lookupName, hkk']
  | cons e rest ih =>
    by_cases he : e.1 = k
    · have he' : ¬(e.1 = k') := fun hx => h (hx ▸ he)
      simp [insertName, he, lookupName, hkk', he']
    · by_cases he' : e.1 = k'
      · simp [insertName, he, lookupName, he', h, hkk']
      · simp [insertName, he, lookupName, he', ih]

theorem getD_append_self (h : Heap) (x : StateD) :
    (h ++ [x]).getD h.length default = x := by
  induction h with
  | nil => rfl
  | cons a l ih => exact ih

theorem getD_append_lt (h : Heap) (x : StateD) (i : Nat) (hi : i < h.length) :
    (h ++ [x]).getD i default = h.getD i default := by
  induction h generalizing i with
  | nil => cases hi
  | cons a l ih =>
    cases i with
    | zero => rfl
    | succ n => simpa using ih n (by simpa using hi)

theorem getD_set_self (h : Heap) (i : Nat) (x : StateD) (hi : i < h.length) :
    (h.set i x).getD i default = x := by
  induction h generalizing i with
  | nil => cases hi
  | cons a l ih =>
    cases i with
    | zero => rfl
    | succ n => simpa using ih n (by simpa using hi)

theorem getD_set_other (h : Heap) (i j : Nat) (x : StateD) (hij : j ≠ i) :
    (h.set i x).getD j default = h.getD j default := by
  induction h generalizing i j with
  | nil => rfl
  | cons a l ih =>
    cases i with
    | zero => cases j with
      | zero => exact absurd rfl hij
      | succ m => rfl
    | succ n =>
      cases j with
      | zero => rfl
      | succ m => simpa using ih n m (by omega)

theorem getD_updState_self (h : Heap) (sid : StateId) (f : StateD → StateD)
    (hs : sid < h.length) :
    (updState h sid f).getD sid default = f (h.getD sid default) :=
  getD_set_self h sid _ hs

theorem getD_updState_other (h : Heap) (sid : StateId) (f : StateD → StateD) (j : StateId)
    (hj : j ≠ sid) : (updState h sid f).getD j default = h.getD j default :=
  getD_set_other h sid j _ hj

theorem updState_length (h : Heap) (sid : StateId) (f : StateD → StateD) :
    (updState h sid f).length = h.length := by
  simp [updState]

theorem foldl_preserve {α β : Type} (P : β → Prop) (f : β → α → β)
    (hstep : ∀ b a, P b → P (f b a)) :
    ∀ (l : List α) (b : β), P b → P (l.foldl f b) := by
  intro l
  induction l with
  | nil => intro b hb; simpa using hb
  | cons a l ih => intro b hb; simpa using ih (f b a) (hstep b a hb)

theorem foldl_establish {α β : Type} (P : β → Prop) (f : β → α → β)
    (hstep : ∀ b a, P b → P (f b a)) (x : α) (hset : ∀ b, P (f b x)) :
    ∀ (l : List α), x ∈ l → ∀ b, P (l.foldl f b) := by
  intro l
  induction l with
  | nil => intro hx; cases hx
  | cons a l ih =>
    intro hx b
    rcases List.mem_cons.mp hx with h | hx'
    · subst h
      simpa using foldl_preserve P f hstep l (f b x) (hset b)
    · simpa using ih hx' (f b a)

theorem mem_addNodeList (ns : List StateId) (n m : StateId) (hm : m ∈ ns) :
    m ∈ addNodeList ns n := by
  by_cases h : n ∈ ns <;> simp [addNodeList, h, hm]

theorem mem_addNodeList_self (ns : List StateId) (n : StateId) :
    n ∈ addNodeList ns n := by
  by_cases h : n ∈ ns <;> simp [addNodeList, h]

theorem mem_nodes_addEdgeG (g : Diagram) (u v m : StateId) (hm : m ∈ g.nodes) :
    m ∈ (addEdgeG g u v).nodes := by
  simp only [addEdgeG, addNodeG]
  split <;> exact mem_addNodeList _ _ _ (mem_addNodeList _ _ _ hm)

theorem mem_nodes_addEdgeG_left (g : Diagram) (u v : StateId) :
    u ∈ (addEdgeG g u v).nodes := by
  simp only [addEdgeG, addNodeG]
  split <;> exact mem_addNodeList _ _ _ (mem_addNodeList_self _ _)

theorem mem_nodes_addEdgeG_right (g : Diagram) (u v : StateId) :
    v ∈ (addEdgeG g u v).nodes := by
  simp only [addEdgeG, addNodeG]
  split <;> exact mem_addNodeList_self _ _

theorem mem_edges_addEdgeG_self (g : Diagram) (u v : StateId) :
    (u, v) ∈ (addEdgeG g u v).edges := by
  simp only [addEdgeG, addNodeG]
  split
  · assumption
  · simp

theorem mem_edges_addEdgeG (g : Diagram) (u v : StateId) (e : StateId × StateId)
    (he : e ∈ g.edges) : e ∈ (addEdgeG g u v).edges := by
  simp only [addEdgeG, addNodeG]
  split
  · exact he
  · simp [he]

theorem mem_edges_addEdgesFromG (g : Diagram) (es : List (StateId × StateId))
    (e : StateId × StateId) (he : e ∈ g.edges) : e ∈ (addEdgesFromG g es).edges :=
  foldl_preserve (fun g => e ∈ g.edges) _
    (fun b a hb => mem_edges_addEdgeG b a.1 a.2 e hb) es g he

theorem mem_edges_addEdgesFromG_of_mem (g : Diagram) (es : List (StateId × StateId))
    (e : StateId × StateId) (he : e ∈ es) : e ∈ (addEdgesFromG g es).edges :=
  foldl_establish (fun g => e ∈ g.edges) _
    (fun b a hb => mem_edges_addEdgeG b a.1 a.2 e hb) e
    (fun b => mem_edges_addEdgeG_self b e.1 e.2) es he g

theorem mem_nodes_addEdgesFromG (g : Diagram) (es : List (StateId × StateId))
    (m : StateId) (hm : m ∈ g.nodes) : m ∈ (addEdgesFromG g es).nodes :=
  foldl_preserve (fun g => m ∈ g.nodes) _
    (fun b a hb => mem_nodes_addEdgeG b a.1 a.2 m hb) es g hm

theorem mem_nodes_addEdgesFromG_snd (g : Diagram) (es : List (StateId × StateId))
    (e : StateId × StateId) (he : e ∈ es) : e.2 ∈ (addEdgesFromG g es).nodes :=
  foldl_establish (fun g => e.2 ∈ g.nodes) _
    (fun b a hb => mem_nodes_addEdgeG b a.1 a.2 e.2 hb) e
    (fun b => mem_nodes_addEdgeG_right b e.1 e.2) es he g

theorem mem_edges_removeNodeG (g : Diagram) (st : StateId) (e : StateId × StateId)
    (he : e ∈ g.edges) (h1 : e.1 ≠ st) (h2 : e.2 ≠ st) :
    e ∈ (removeNodeG g st).edges := by
  simp [removeNodeG, List.mem_filter, he, h1, h2]

theorem mem_nodes_removeNodeG (g : Diagram) (st : StateId) (m : StateId)
    (hm : m ∈ g.nodes) (h : m ≠ st) : m ∈ (removeNodeG g st).nodes := by
  simp [removeNodeG, List.mem_filter, hm, h]

theorem not_mem_nodes_removeNodeG (g : Diagram) (st : StateId) :
    st ∉ (removeNodeG g st).nodes := by
  simp [removeNodeG, List.mem_filter]

theorem mem_add_substate_top (h : Heap) (pid sid : StateId) (hp : pid < h.length) :
    sid ∈ ((add_substate h pid sid)[pid]?.getD default).substates.top_level := by
  have h0 : sid ∈ ((add_substate h pid sid).getD pid default).substates.top_level := by
    unfold add_substate
    rw [getD_updState_self _ _ _ hp]
    simp
  simpa using h0

theorem transitions_addEdgeG (g : Diagram) (u v : StateId) :
    (addEdgeG g u v).transitions = g.transitions := by
  simp only [addEdgeG, addNodeG]
  split <;> rfl

theorem state_names_addEdgeG (g : Diagram) (u v : StateId) :
    (addEdgeG g u v).state_names = g.state_names := by
  simp only [addEdgeG, addNodeG]
  split <;> rfl

theorem getD_substates_scoped (h2 : Heap) (pid sid did : StateId)
    (f1 f2 : StateD → StateD) (hp : pid < h2.length) (hs : sid ≠ pid) (hd : did ≠ pid) :
    ((updState (updState (updState h2 pid
        (fun ps => { ps with substates := addEdgeG ps.substates sid did })) sid f1)
        did f2)[pid]?.getD default).substates
      = addEdgeG (h2[pid]?.getD default).substates sid did := by
  have h0 : (List.getD (updState (updState (updState h2 pid
        (fun ps => { ps with substates := addEdgeG ps.substates sid did })) sid f1)
        did f2) pid default).substates
      = addEdgeG (List.getD h2 pid default).substates sid did := by
    rw [getD_updState_other _ _ _ _ (Ne.symm hd)]
    rw [getD_updState_other _ _ _ _ (Ne.symm hs)]
    rw [getD_updState_self _ _ _ hp]
  simpa using h0

theorem getD_append_lt2 (h : Heap) (l : List StateD) (i : Nat) (hi : i < h.length) :
    (h ++ l)[i]?.getD default = h[i]?.getD default := by
  rw [List.getElem?_append, if_pos hi]

theorem getD_substates_scoped2 (h : Heap) (a b : StateD) (pid sid did : StateId)
    (f1 f2 : StateD → StateD) (hp : pid < h.length) (hs : sid ≠ pid) (hd : did ≠ pid) :
    ((updState (updState (updState (h ++ [a, b]) pid
        (fun ps => { ps with substates := addEdgeG ps.substates sid did })) sid f1)
        did f2)[pid]?.getD default).substates
      = addEdgeG (h[pid]?.getD default).substates sid did := by
  rw [getD_substates_scoped _ _ _ _ _ _ (lt_of_lt_of_le hp (by simp)) hs hd,
      getD_append_lt2 _ _ _ hp]

/-! ## Claims -/

/-- Claim C2 (code bug).  The spec says the end-of-stream flush loop handles a
non-actionable buffer head by logging and dropping it, never raising, with
`parse` still returning the model.  The source's log call concatenates a
`str` with the popped `(token, value)` tuple, which raises `TypeError`, so
the flush loop raises instead of logging-and-dropping: on the stream
`[(TDEST, "a"), (TSOURCE, "b")]` the flush finds the non-actionable `TDEST`
at the head and `parse` raises `TypeError`. -/
theorem parse_flush_nonactionable_raises :
    errOf (parse initBuilder [(TokKind.TDEST, "a"), (TokKind.TSOURCE, "b")])
      = some PyErr.typeError ∧
    (∀ b : BState, ∀ p : Nat, ∀ hk : TokKind, ∀ hv : String, ∀ qrest : List Tok,
      b.q = (hk, hv) :: qrest → isActionable hk = false →
      flushPending b (p + 1) = .error (.typeError, { b with q := qrest })) := by
  constructor
  · rfl
  · intro b p hk hv qrest hq hna
    simp [flushPending, hq, hna]

/-- Claim C4 (code bug).  The spec says `is_start_state`/`is_end_state` with
`global_scope=True` and a parent consult the parent recursively and
symmetrically.  The source's `is_start_state` passes the misspelled keyword
`gloabl_scope=True`, so whenever the local test fails and a parent `State`
is present it raises `TypeError` instead of recursing; `is_end_state` on
the symmetric input does recurse and answers.  Here state `1` has state `0`
as parent, a non-empty `source` and a non-empty `destination`, and state
`0` is both a local start and a local end. -/
theorem is_start_state_global_raises :
    (is_start_state
        [{ name := "P", attrs := [], substates := {}, num_substates := 1, active := false,
           source := [], destination := [], parent := none },
         { name := "B", attrs := [], substates := {}, num_substates := 0, active := false,
           source := [0], destination := [0], parent := some (.inr 0) }]
        1 true = .error PyErr.typeError) ∧
    (is_end_state
        [{ name := "P", attrs := [], substates := {}, num_substates := 1, active := false,
           source := [], destination := [], parent := none },
         { name := "B", attrs := [], substates := {}, num_substates := 0, active := false,
           source := [0], destination := [0], parent := some (.inr 0) }]
        9 1 true = .ok true) ∧
    (is_start_state
        [{ name := "P", attrs := [], substates := {}, num_substates := 1, active := false,
           source := [], destination := [], parent := none },
         { name := "B", attrs := [], substates := {}, num_substates := 0, active := false,
           source := [0], destination := [0], parent := some (.inr 0) }]
        1 false = .ok false) := by
  refine ⟨rfl, rfl, rfl⟩

/-- Claim C6 (code bug).  The spec says every `add_transition` endpoint name
not already declared is auto-created and the call completes.  The operator
precedence slip in `check_state_exists` (`isinstance(x, str) or
isinstance(x, unicode) and x in self.state_names`) makes every byte-`str`
name count as existing, so an undeclared byte-string endpoint is never
auto-created and `get_state` raises `NameError`; with `unicode` names
(which the lexer produces) the auto-creation works as specified. -/
theorem add_transition_bytes_not_autocreated :
    (∃ s, add_transition {} [] (PyStr.bytes "X") (PyStr.uni "Y") none none
      = .error (PyErr.nameError, s)) ∧
    (∃ d h, add_transition {} [] (PyStr.uni "X") (PyStr.uni "Y") none none = .ok (d, h) ∧
      lookupName d.state_names "X" = some 0 ∧ lookupName d.state_names "Y" = some 1) ∧
    check_state_exists {} (.str (PyStr.bytes "X")) = true := by
  refine ⟨⟨_, rfl⟩, ⟨_, _, rfl, rfl, rfl⟩, rfl⟩

/-- Claim C10, counterexample.  The claim says *every* subsequent
state-declaration, transition, or scope-close handler invocation after the
stack has been emptied raises an uncaught `IndexError`.  A malformed
transition (source not followed by `TDEST`) raises `AttributeError`
instead: the malformed-transition check fires before the empty
`superstate_stack` is ever consulted. -/
theorem assign_trans_underflow_attributeerror :
    errOf (assign_trans
      { q := [(TokKind.TSOURCE, "a"), (TokKind.STATE, "b")],
        dia := {}, heap := [], superstate_stack := [] })
      = some PyErr.attributeError ∧
    some PyErr.attributeError ≠ some PyErr.indexError := ⟨rfl, by decide⟩

/-- Claim C10 (amended).  A scope-close with no matching scope-open pops the
sentinel bottom entry, leaving the scope stack empty; afterwards every
state-declaration handler invocation and every scope-close handler
invocation raises an uncaught `IndexError`, and every transition handler
invocation raises `IndexError` provided the transition itself is not
malformed (a transition-source with a following non-`TDEST` token raises
`AttributeError` from the malformed-transition check before the stack is
consulted — see the counterexample). -/
theorem scope_close_underflow (b : BState) (t : Tok) (rest : List Tok)
    (hstack : b.superstate_stack = [none]) (hq : b.q = t :: rest) :
    (end_superstate b = .ok { b with q := rest, superstate_stack := [] }) ∧
    (∀ b2 : BState, b2.superstate_stack = [] →
      errOf (assign_state b2) = some PyErr.indexError) ∧
    (∀ b3 : BState, b3.superstate_stack = [] →
      (b3.q = [] ∨ (∃ t1, b3.q = [t1]) ∨
        (∃ t1 dv rest3, b3.q = t1 :: (TokKind.TDEST, dv) :: rest3)) →
      errOf (assign_trans b3) = some PyErr.indexError) ∧
    (∀ b4 : BState, b4.superstate_stack = [] →
      errOf (end_superstate b4) = some PyErr.indexError) := by
  refine ⟨?_, ?_, ?_, ?_⟩
  · simp [end_superstate, hq, hstack]
  · intro b2 h2
    rcases hq2 : b2.q with _ | ⟨⟨k0, n⟩, q1⟩
    · simp [assign_state, hq2, errOf]
    · rcases q1 with _ | ⟨⟨k1, v1⟩, q2⟩
      · simp [assign_state, hq2, errOf]
      · by_cases hk : k1 = TokKind.SSTART
        · simp [assign_state, hq2, hk, start_superstate, h2, errOf]
        · simp [assign_state, hq2, hk, h2, errOf]
  · intro b3 h3 hq3
    rcases hq3 with hq3 | ⟨t1, hq3⟩ | ⟨t1, dv, rest3, hq3⟩
    · simp [assign_trans, hq3, errOf]
    · simp [assign_trans, hq3, errOf]
    · rcases rest3 with _ | ⟨⟨k3, v3⟩, q4⟩
      · simp [assign_trans, hq3, h3, errOf]
      · cases k3 <;> simp [assign_trans, hq3, h3, errOf]
  · intro b4 h4
    rcases hq4 : b4.q with _ | ⟨t1, q1⟩
    · simp [end_superstate, hq4, errOf]
    · simp [end_superstate, hq4, h4, errOf]

/-- Witness for `scope_close_underflow` at a concrete builder state. -/
theorem scope_close_underflow_witness :
    (end_superstate { q := [(TokKind.SEND, "x7d")], dia := {}, heap := [],
                      superstate_stack := [none] }
      = .ok { q := [], dia := {}, heap := [], superstate_stack := [] }) ∧
    (∀ b2 : BState, b2.superstate_stack = [] →
      errOf (assign_state b2) = some PyErr.indexError) ∧
    (∀ b3 : BState, b3.superstate_stack = [] →
      (b3.q = [] ∨ (∃ t1, b3.q = [t1]) ∨
        (∃ t1 dv rest3, b3.q = t1 :: (TokKind.TDEST, dv) :: rest3)) →
      errOf (assign_trans b3) = some PyErr.indexError) ∧
    (∀ b4 : BState, b4.superstate_stack = [] →
      errOf (end_superstate b4) = some PyErr.indexError) :=
  scope_close_underflow
    { q := [(TokKind.SEND, "x7d")], dia := {}, heap := [], superstate_stack := [none] }
    (TokKind.SEND, "x7d") [] rfl rfl


/-- Claim C8, counterexample.  The claim says *every* state declared after a
scope-open (until the matching close) becomes a substate of the open
superstate.  Re-declaring a name that already exists merges into the
existing state instead (`add_state` is idempotent): here `X` is declared at
top level, then declared again inside superstate `B`, yet `B` ends with no
substates and `X` (id 0) stays in the root top level. -/
theorem assign_state_redeclared_not_substate :
    ∃ b : BState,
      parse initBuilder
        [(TokKind.STATE, "X"), (TokKind.STATE, "B"), (TokKind.SSTART, "ob"),
         (TokKind.STATE, "X"), (TokKind.SEND, "cb"),
         (TokKind.TSOURCE, "pad"), (TokKind.TDEST, "pad2")] = .ok b ∧
      lookupName b.dia.state_names "X" = some 0 ∧
      lookupName b.dia.state_names "B" = some 1 ∧
      (b.heap.getD 1 default).substates.top_level = [] ∧
      (b.heap.getD 1 default).num_substates = 0 ∧
      0 ∈ b.dia.top_level :=
  ⟨_, rfl, rfl, rfl, rfl, rfl, by decide⟩

/-- Claim C8 (amended).  A state-name token immediately followed by a
scope-open token declares a superstate: the state is added into the current
scope and its name is pushed onto the scope stack; and every state with a
*fresh* name declared while that name is still the top of the scope stack
is registered and added as a substate of that superstate (a re-declared
name merges into the existing state instead — see the counterexample). -/
theorem superstate_scope_nesting
    (b : BState) (name w v3 : String) (k3 : TokKind) (rest3 : List Tok)
    (p : Option String) (pid : StateId)
    (hq : b.q = (TokKind.STATE, name) :: (TokKind.SSTART, w) :: (k3, v3) :: rest3)
    (hk3 : k3 ≠ TokKind.SATTR)
    (hstack : b.superstate_stack.getLast? = some p)
    (hfresh : lookupName b.dia.state_names name = none)
    (hpok : p = none ∨ ∃ pn, p = some pn ∧ pn ≠ "" ∧
        lookupName b.dia.state_names pn = some pid ∧ pid < b.heap.length)
    (b2 : BState) (name2 v4 : String) (k4 : TokKind) (rest4 : List Tok)
    (nm : String) (pid2 : StateId)
    (hq2 : b2.q = (TokKind.STATE, name2) :: (k4, v4) :: rest4)
    (hk4s : k4 ≠ TokKind.SSTART) (hk4a : k4 ≠ TokKind.SATTR)
    (hstack2 : b2.superstate_stack.getLast? = some (some nm)) (hnm : nm ≠ "")
    (hpid2 : lookupName b2.dia.state_names nm = some pid2)
    (hpid2len : pid2 < b2.heap.length)
    (hfresh2 : lookupName b2.dia.state_names name2 = none) :
    (∃ b' : BState, assign_state b = .ok b' ∧
      b'.superstate_stack = b.superstate_stack ++ [some name] ∧
      b'.q = (k3, v3) :: rest3 ∧
      lookupName b'.dia.state_names name = some b.heap.length ∧
      (p = none → b.heap.length ∈ b'.dia.top_level) ∧
      (∀ pn, p = some pn →
        b.heap.length ∈ (b'.heap.getD pid default).substates.top_level)) ∧
    (∃ b2' : BState, assign_state b2 = .ok b2' ∧
      b2'.superstate_stack = b2.superstate_stack ∧
      b2'.q = (k4, v4) :: rest4 ∧
      lookupName b2'.dia.state_names name2 = some b2.heap.length ∧
      b2.heap.length ∈ (b2'.heap.getD pid2 default).substates.top_level) := by
  have hself : ∀ (m : List (String × StateId)) (k : String) (v : StateId),
      lookupName (insertName m k v) k = some v := lookupName_insert_self
  constructor
  · -- superstate declaration branch
    rcases hpok with hpn | ⟨pn, hpn, hpne, hpl, hplen⟩
    · subst hpn
      simp [assign_state, hq, start_superstate, hstack, add_state, check_state_exists,
            PyStr.uni, hfresh, optTruthy, hk3, hself, addNodeG, addNodeList]
    · subst hpn
      have hne : pn ≠ name := by
        intro hx; rw [hx, hfresh] at hpl; cases hpl
      have hpe : pn.isEmpty = false := by
        cases hx : pn.isEmpty
        · rfl
        · exact absurd ((String.isEmpty_iff pn).mp hx) hpne
      simp [assign_state, hq, start_superstate, hstack, add_state, check_state_exists,
            get_state, PyStr.uni, hfresh, optTruthy, hk3, hself, hpe,
            lookupName_insert_other b.dia.state_names name pn b.heap.length hne, hpl,
            attachAttr]
      exact mem_add_substate_top _ _ _ (lt_of_lt_of_le hplen (by simp))
  · -- subsequent plain declaration inside the open scope
    have hne2 : nm ≠ name2 := by
      intro hx; rw [hx, hfresh2] at hpid2; cases hpid2
    have hpe2 : nm.isEmpty = false := by
      cases hx : nm.isEmpty
      · rfl
      · exact absurd ((String.isEmpty_iff nm).mp hx) hnm
    simp [assign_state, hq2, hstack2, add_state, check_state_exists,
          get_state, PyStr.uni, hfresh2, optTruthy, hk4s, hk4a, hself, hpe2,
          lookupName_insert_other b2.dia.state_names name2 nm b2.heap.length hne2, hpid2,
          attachAttr]
    exact mem_add_substate_top _ _ _ (lt_of_lt_of_le hpid2len (by simp))

/-- Witness for `superstate_scope_nesting`: `B {` opens a scope at top level,
then `X` declared while `B` tops the stack becomes `B`'s substate. -/
theorem superstate_scope_nesting_witness :
    (∃ b' : BState,
      assign_state
        { q := [(TokKind.STATE, "B"), (TokKind.SSTART, "ob"), (TokKind.STATE, "X")],
          dia := {}, heap := [], superstate_stack := [none] } = .ok b' ∧
      b'.superstate_stack = [none] ++ [some "B"] ∧
      b'.q = [(TokKind.STATE, "X")] ∧
      lookupName b'.dia.state_names "B" = some 0 ∧
      ((none : Option String) = none → 0 ∈ b'.dia.top_level) ∧
      (∀ pn, (none : Option String) = some pn →
        0 ∈ (b'.heap.getD 0 default).substates.top_level)) ∧
    (∃ b2' : BState,
      assign_state
        { q := [(TokKind.STATE, "X"), (TokKind.SEND, "cb")],
          dia := { state_names := [("B", 0)], top_level := [0], nodes := [0] },
          heap := [{ name := "B", attrs := [], substates := {}, num_substates := 0,
                     active := false, source := [], destination := [], parent := none }],
          superstate_stack := [none, some "B"] } = .ok b2' ∧
      b2'.superstate_stack = [none, some "B"] ∧
      b2'.q = [(TokKind.SEND, "cb")] ∧
      lookupName b2'.dia.state_names "X" = some 1 ∧
      1 ∈ (b2'.heap.getD 0 default).substates.top_level) :=
  superstate_scope_nesting
    { q := [(TokKind.STATE, "B"), (TokKind.SSTART, "ob"), (TokKind.STATE, "X")],
      dia := {}, heap := [], superstate_stack := [none] }
    "B" "ob" "X" TokKind.STATE [] none 0 rfl (by decide) rfl rfl (Or.inl rfl)
    { q := [(TokKind.STATE, "X"), (TokKind.SEND, "cb")],
      dia := { state_names := [("B", 0)], top_level := [0], nodes := [0] },
      heap := [{ name := "B", attrs := [], substates := {}, num_substates := 0,
                 active := false, source := [], destination := [], parent := none }],
      superstate_stack := [none, some "B"] }
    "X" "cb" TokKind.SEND [] "B" 0 rfl (by decide) (by decide) rfl (by decide) rfl
    (by decide) rfl

/-- Claim C5, counterexample.  The claim says a scoped `add_transition` records
the `Transition` in the transitions list of the child scope named by
`parent` and *not* in the root scope's transitions list.  In the source,
`self.transitions.append(new_transition)` runs unconditionally on the
diagram the method was called on: with `P` declared and
`add_transition(u, v, parent_state=P)`, the root's transitions list gains
the transition while `P`'s child diagram's transitions list stays empty
(only the directed edge lands in `P`'s child scope). -/
theorem add_transition_scoped_goes_to_root :
    ∃ r : Diagram × Heap, add_state {} [] (PyStr.uni "P") none none = .ok r ∧
    ∃ d : Diagram, ∃ h : Heap,
      add_transition r.1 r.2 (PyStr.uni "u") (PyStr.uni "v") (some "P") none = .ok (d, h) ∧
      d.transitions.length = 1 ∧
      (h.getD 0 default).substates.transitions = [] ∧
      (h.getD 0 default).substates.edges = [(1, 2)] ∧
      d.edges = [] :=
  ⟨_, rfl, _, _, rfl, rfl, rfl, rfl, rfl⟩

/-- Claim C5 (amended).  `add_transition(source, dest, parent, attrs)` with a
declared non-empty `parent` appends the constructed `Transition` to the
transitions list of the diagram it is called on (the root) — the child
scope's transitions list is untouched — records the directed edge in that
parent state's `substates` edge relation, and leaves the root's edge
relation unchanged; with no parent both the transition and the edge go to
the root scope. -/
theorem add_transition_scope_placement
    (d : Diagram) (h : Heap) (u v : PyStr) (pn : String) (pid : StateId)
    (attrs : Option String)
    (hu : u.isBytes = false) (hv : v.isBytes = false)
    (hustar : u.val ≠ "[*]") (hvstar : v.val ≠ "[*]")
    (hufresh : lookupName d.state_names u.val = none)
    (hvfresh : lookupName d.state_names v.val = none)
    (huv : u.val ≠ v.val)
    (hpn : pn ≠ "") (hpid : lookupName d.state_names pn = some pid)
    (hpl : pid < h.length) :
    (∃ d1 : Diagram, ∃ h1 : Heap,
      add_transition d h u v (some pn) attrs = .ok (d1, h1) ∧
      (∃ t : Transition, d1.transitions = d.transitions ++ [t] ∧
        t.source = [h.length] ∧ t.dest = [h.length + 1]) ∧
      d1.edges = d.edges ∧
      (h1.getD pid default).substates.transitions
        = (h.getD pid default).substates.transitions ∧
      (h.length, h.length + 1) ∈ (h1.getD pid default).substates.edges) ∧
    (∃ d2 : Diagram, ∃ h2 : Heap,
      add_transition d h u v none attrs = .ok (d2, h2) ∧
      (∃ t : Transition, d2.transitions = d.transitions ++ [t] ∧
        t.source = [h.length] ∧ t.dest = [h.length + 1]) ∧
      (h.length, h.length + 1) ∈ d2.edges) := by
  have hself : ∀ (m : List (String × StateId)) (k : String) (x : StateId),
      lookupName (insertName m k x) k = some x := lookupName_insert_self
  have hvu : v.val ≠ u.val := fun hx => huv hx.symm
  have hl1 : ∀ (m : List (String × StateId)) (x : StateId),
      lookupName (insertName m u.val x) v.val = lookupName m v.val :=
    fun m x => lookupName_insert_other m u.val v.val x hvu
  have hl2 : ∀ (m : List (String × StateId)) (x : StateId),
      lookupName (insertName m v.val x) u.val = lookupName m u.val :=
    fun m x => lookupName_insert_other m v.val u.val x huv
  have hpnu : pn ≠ u.val := by
    intro hx; rw [hx, hufresh] at hpid; cases hpid
  have hpnv : pn ≠ v.val := by
    intro hx; rw [hx, hvfresh] at hpid; cases hpid
  have hl3 : ∀ (m : List (String × StateId)) (x : StateId),
      lookupName (insertName m u.val x) pn = lookupName m pn :=
    fun m x => lookupName_insert_other m u.val pn x hpnu
  have hl4 : ∀ (m : List (String × StateId)) (x : StateId),
      lookupName (insertName m v.val x) pn = lookupName m pn :=
    fun m x => lookupName_insert_other m v.val pn x hpnv
  have hpe : pn.isEmpty = false := by
    cases hx : pn.isEmpty
    · rfl
    · exact absurd ((String.isEmpty_iff pn).mp hx) hpn
  constructor
  · simp [add_transition, add_state, check_state_exists, get_state, PyStr.uni,
          hustar, hvstar, hu, hv, hufresh, hvfresh, optTruthy, hpe,
          hself, hl1, hl2, hl3, hl4, hpid, attachAttr, addNodeG]
    have hs1 : List.length h ≠ pid := Nat.ne_of_gt hpl
    have hd1 : List.length h + 1 ≠ pid := Nat.ne_of_gt (Nat.lt_succ_of_lt hpl)
    refine ⟨_, _, ⟨rfl, rfl⟩, by simp, rfl, ?_, ?_⟩
    · rw [getD_substates_scoped2 _ _ _ _ _ _ _ _ hpl hs1 hd1, transitions_addEdgeG]
    · rw [getD_substates_scoped2 _ _ _ _ _ _ _ _ hpl hs1 hd1]
      exact mem_edges_addEdgeG_self _ _ _
  · simp [add_transition, add_state, check_state_exists, get_state, PyStr.uni,
          hustar, hvstar, hu, hv, hufresh, hvfresh, optTruthy,
          hself, hl1, hl2, attachAttr, addNodeG]
    refine ⟨⟨_, by rw [transitions_addEdgeG], rfl, rfl⟩, mem_edges_addEdgeG_self _ _ _⟩

/-- Witness for `add_transition_scope_placement` with `P` declared at heap
index 0 and fresh endpoints `u`, `v`. -/
theorem add_transition_scope_placement_witness :
    (∃ d1 : Diagram, ∃ h1 : Heap,
      add_transition { state_names := [("P", 0)] } [default]
          (PyStr.uni "u") (PyStr.uni "v") (some "P") none = .ok (d1, h1) ∧
      (∃ t : Transition, d1.transitions = [] ++ [t] ∧ t.source = [1] ∧ t.dest = [1 + 1]) ∧
      d1.edges = [] ∧
      (h1.getD 0 default).substates.transitions
        = (([default] : Heap).getD 0 default).substates.transitions ∧
      (1, 1 + 1) ∈ (h1.getD 0 default).substates.edges) ∧
    (∃ d2 : Diagram, ∃ h2 : Heap,
      add_transition { state_names := [("P", 0)] } [default]
          (PyStr.uni "u") (PyStr.uni "v") none none = .ok (d2, h2) ∧
      (∃ t : Transition, d2.transitions = [] ++ [t] ∧ t.source = [1] ∧ t.dest = [1 + 1]) ∧
      (1, 1 + 1) ∈ d2.edges) :=
  add_transition_scope_placement { state_names := [("P", 0)] } [default]
    (PyStr.uni "u") (PyStr.uni "v") "P" 0 none rfl rfl (by decide) (by decide)
    (by decide) (by decide) (by decide) (by decide) (by decide) (by decide)

/-- Claim C9 (confirmed).  Two independent top-level transitions whose source
is the start-marker `[*]` both resolve to the single shared `START` state
(the same heap object, auto-created by the first call at the next free heap
index), and symmetrically two transitions whose destination is the marker
share the single `END` state. -/
theorem sentinel_sharing
    (d : Diagram) (h : Heap) (a b c e : PyStr)
    (hS : lookupName d.state_names "START" = none)
    (ha : a.isBytes = false) (hav : a.val ≠ "[*]") (has : a.val ≠ "START")
    (hafresh : lookupName d.state_names a.val = none)
    (hb : b.isBytes = false) (hbv : b.val ≠ "[*]") (hbs : b.val ≠ "START")
    (hbfresh : lookupName d.state_names b.val = none) (hab : b.val ≠ a.val)
    (hE : lookupName d.state_names "END" = none)
    (hc : c.isBytes = false) (hcv : c.val ≠ "[*]") (hcs : c.val ≠ "END")
    (hcfresh : lookupName d.state_names c.val = none)
    (he : e.isBytes = false) (hev : e.val ≠ "[*]") (hes : e.val ≠ "END")
    (hefresh : lookupName d.state_names e.val = none) (hce : e.val ≠ c.val) :
    (∃ r1 : Diagram × Heap, ∃ r2 : Diagram × Heap, ∃ t1 t2 : Transition,
      add_transition d h (PyStr.uni "[*]") a none none = .ok r1 ∧
      add_transition r1.1 r1.2 (PyStr.uni "[*]") b none none = .ok r2 ∧
      lookupName r2.1.state_names "START" = some h.length ∧
      r1.1.transitions = d.transitions ++ [t1] ∧
      r2.1.transitions = r1.1.transitions ++ [t2] ∧
      t1.source = [h.length] ∧ t2.source = [h.length]) ∧
    (∃ r3 : Diagram × Heap, ∃ r4 : Diagram × Heap, ∃ t3 t4 : Transition,
      add_transition d h c (PyStr.uni "[*]") none none = .ok r3 ∧
      add_transition r3.1 r3.2 e (PyStr.uni "[*]") none none = .ok r4 ∧
      lookupName r4.1.state_names "END" = some (h.length + 1) ∧
      r3.1.transitions = d.transitions ++ [t3] ∧
      r4.1.transitions = r3.1.transitions ++ [t4] ∧
      t3.dest = [h.length + 1] ∧ t4.dest = [h.length + 1]) := by
  have hself : ∀ (m : List (String × StateId)) (k : String) (x : StateId),
      lookupName (insertName m k x) k = some x := lookupName_insert_self
  constructor
  · -- START sharing
    have hsa : ("START" : String) ≠ a.val := fun hx => has hx.symm
    have hsb : ("START" : String) ≠ b.val := fun hx => hbs hx.symm
    have hA1 : ∀ x, lookupName (insertName d.state_names "START" x) a.val
        = none := fun x => by
      rw [lookupName_insert_other _ _ _ _ has, hafresh]
    have hS2 : ∀ x y, lookupName (insertName (insertName d.state_names "START" x) a.val y)
        "START" = some x := fun x y => by
      rw [lookupName_insert_other _ _ _ _ hsa, hself]
    have hB2 : ∀ x y, lookupName (insertName (insertName d.state_names "START" x) a.val y)
        b.val = none := fun x y => by
      rw [lookupName_insert_other _ _ _ _ hab, lookupName_insert_other _ _ _ _ hbs, hbfresh]
    have hS3 : ∀ x y z, lookupName (insertName (insertName (insertName d.state_names
        "START" x) a.val y) b.val z) "START" = some x := fun x y z => by
      rw [lookupName_insert_other _ _ _ _ hsb, hS2]
    simp [add_transition, add_state, check_state_exists, get_state, PyStr.uni,
          hav, hbv, ha, hb, hS, hafresh, optTruthy, attachAttr, addNodeG,
          state_names_addEdgeG, transitions_addEdgeG,
          hself, hA1, hS2, hB2, hS3]
  · -- END sharing
    have hec : ("END" : String) ≠ c.val := fun hx => hcs hx.symm
    have hee : ("END" : String) ≠ e.val := fun hx => hes hx.symm
    have hE1 : ∀ x, lookupName (insertName d.state_names c.val x) "END"
        = none := fun x => by
      rw [lookupName_insert_other _ _ _ _ hec, hE]
    have hE2 : ∀ x y, lookupName (insertName (insertName d.state_names c.val x) "END" y)
        "END" = some y := fun x y => hself _ _ _
    have hC1 : ∀ x y, lookupName (insertName (insertName d.state_names c.val x) "END" y)
        c.val = some x := fun x y => by
      rw [lookupName_insert_other _ _ _ _ hcs, hself]
    have hC2 : ∀ x y, lookupName (insertName (insertName d.state_names c.val x) "END" y)
        e.val = none := fun x y => by
      rw [lookupName_insert_other _ _ _ _ hes, lookupName_insert_other _ _ _ _ hce, hefresh]
    have hE3 : ∀ x y z, lookupName (insertName (insertName (insertName d.state_names
        c.val x) "END" y) e.val z) "END" = some y := fun x y z => by
      rw [lookupName_insert_other _ _ _ _ hee, hE2]
    simp [add_transition, add_state, check_state_exists, get_state, PyStr.uni,
          hcv, hev, hc, he, hE, hcfresh, hefresh, optTruthy, attachAttr, addNodeG,
          state_names_addEdgeG, transitions_addEdgeG,
          hself, hE1, hE2, hC1, hC2, hE3]

/-- Witness for `sentinel_sharing` on an empty diagram with destinations
`P`, `Q` and sources `R`, `S`. -/
theorem sentinel_sharing_witness :
    (∃ r1 : Diagram × Heap, ∃ r2 : Diagram × Heap, ∃ t1 t2 : Transition,
      add_transition {} [] (PyStr.uni "[*]") (PyStr.uni "P") none none = .ok r1 ∧
      add_transition r1.1 r1.2 (PyStr.uni "[*]") (PyStr.uni "Q") none none = .ok r2 ∧
      lookupName r2.1.state_names "START" = some 0 ∧
      r1.1.transitions = [] ++ [t1] ∧
      r2.1.transitions = r1.1.transitions ++ [t2] ∧
      t1.source = [0] ∧ t2.source = [0]) ∧
    (∃ r3 : Diagram × Heap, ∃ r4 : Diagram × Heap, ∃ t3 t4 : Transition,
      add_transition {} [] (PyStr.uni "R") (PyStr.uni "[*]") none none = .ok r3 ∧
      add_transition r3.1 r3.2 (PyStr.uni "S") (PyStr.uni "[*]") none none = .ok r4 ∧
      lookupName r4.1.state_names "END" = some 1 ∧
      r3.1.transitions = [] ++ [t3] ∧
      r4.1.transitions = r3.1.transitions ++ [t4] ∧
      t3.dest = [1] ∧ t4.dest = [1]) :=
  sentinel_sharing {} [] (PyStr.uni "P") (PyStr.uni "Q") (PyStr.uni "R") (PyStr.uni "S")
    (by decide) (by decide) (by decide) (by decide) (by decide)
    (by decide) (by decide) (by decide) (by decide) (by decide)
    (by decide) (by decide) (by decide) (by decide) (by decide)
    (by decide) (by decide) (by decide) (by decide) (by decide)

/-- Helper for the malformed-transition claim: once the buffer holds a
`TSOURCE` token whose successor is not `TDEST`, every continuation of the
parse (any remaining input, any positive pending count) propagates the
handler's `AttributeError`, and the error state's transitions list is the
one from before the handler ran. -/
theorem parseLoop_tsource_bad (v w : String) (k : TokKind) (hk : k ≠ TokKind.TDEST) :
    ∀ (stream : List Tok) (b : BState) (rest : List Tok) (pending : Nat),
      b.q = (TokKind.TSOURCE, v) :: (k, w) :: rest →
      ∃ s, parseLoop b (pending + 1) stream = .error (PyErr.attributeError, s) ∧
        s.dia.transitions = b.dia.transitions := by
  intro stream
  induction stream with
  | nil =>
    intro b rest pending hq
    refine ⟨{ b with q := (k, w) :: rest }, ?_, rfl⟩
    simp [parseLoop, flushPending, hq, isActionable, actionKinds, dispatch, assign_trans, hk]
  | cons t ts ih =>
    intro b rest pending hq
    by_cases hig : ignoredTok t.1 = true
    · obtain ⟨s, hs, htr⟩ := ih b rest pending hq
      exact ⟨s, by simpa [parseLoop, hig] using hs, htr⟩
    · by_cases hact : isActionable t.1 = true
      · have hact1 : (t.1 = TokKind.STATE ∨ t.1 = TokKind.SALIAS ∨ t.1 = TokKind.SEND ∨
            t.1 = TokKind.TSOURCE) := by simpa [isActionable, actionKinds] using hact
        have hgt2 : 1 < pending + 1 + 1 := by omega
        refine ⟨{ b with q := (k, w) :: (rest ++ [t]) }, ?_, rfl⟩
        simp [parseLoop, hig, hact1, hq, dispatch, isActionable, actionKinds,
              assign_trans, hk, hgt2]
      · have hact0 : ¬(t.1 = TokKind.STATE ∨ t.1 = TokKind.SALIAS ∨ t.1 = TokKind.SEND ∨
            t.1 = TokKind.TSOURCE) := by simpa [isActionable, actionKinds] using hact
        rcases pending with _ | p
        · have hq1 : ({ b with q := b.q ++ [t] } : BState).q
              = (TokKind.TSOURCE, v) :: (k, w) :: (rest ++ [t]) := by simp [hq]
          obtain ⟨s, hs, htr⟩ := ih { b with q := b.q ++ [t] } (rest ++ [t]) 0 hq1
          refine ⟨s, ?_, by simpa using htr⟩
          simpa [parseLoop, hig, hact] using hs
        · have hgt : 1 < p + 1 + 1 := by omega
          refine ⟨{ b with q := (k, w) :: (rest ++ [t]) }, ?_, rfl⟩
          simp [parseLoop, hig, hact0, hq, dispatch, isActionable, actionKinds,
                assign_trans, hk, hgt]

/-- Auxiliary: ignored token kinds never enter the buffer, so a tail of
ignored tokens leaves the parse loop at its flush. -/
theorem parseLoop_ignored_flush (b : BState) (pending : Nat) :
    ∀ (stream : List Tok), (∀ t ∈ stream, ignoredTok t.1 = true) →
      parseLoop b pending stream = flushPending b pending := by
  intro stream
  induction stream with
  | nil => intro _; rfl
  | cons t ts ih =>
    intro h
    have ht : ignoredTok t.1 = true := h t (by simp)
    have hrec := ih (fun t2 ht2 => h t2 (by simp [ht2]))
    simpa [parseLoop, ht] using hrec

/-- Claim C3 (confirmed).  A transition-source token that is not immediately
followed (in the buffered stream, after the source value is popped) by a
transition-destination token makes the handler raise without recording any
`Transition`, and the error propagates out of the parse loop, aborting the
build with the transitions list untouched.  Both shapes of the condition
are covered: a following token of the wrong kind raises `AttributeError`
(propagated for every remaining input), and a source with no following
buffered token at all — nothing further before stream end — raises
`IndexError` from the `self.q[0]` lookahead (propagated through the flush
for any tail of ignored tokens). -/
theorem malformed_transition_aborts
    (b : BState) (v w : String) (k : TokKind) (rest : List Tok)
    (hq : b.q = (TokKind.TSOURCE, v) :: (k, w) :: rest) (hk : k ≠ TokKind.TDEST)
    (b2 : BState) (v2 : String) (hq2 : b2.q = [(TokKind.TSOURCE, v2)]) :
    ((assign_trans b = .error (PyErr.attributeError, { b with q := (k, w) :: rest }) ∧
      ({ b with q := (k, w) :: rest } : BState).dia.transitions = b.dia.transitions) ∧
    (∀ (stream : List Tok) (pending : Nat),
      ∃ s, parseLoop b (pending + 1) stream = .error (PyErr.attributeError, s) ∧
        s.dia.transitions = b.dia.transitions)) ∧
    ((assign_trans b2 = .error (PyErr.indexError, { b2 with q := [] }) ∧
      ({ b2 with q := [] } : BState).dia.transitions = b2.dia.transitions) ∧
    (∀ (stream : List Tok) (pending : Nat), (∀ t ∈ stream, ignoredTok t.1 = true) →
      ∃ s, parseLoop b2 (pending + 1) stream = .error (PyErr.indexError, s) ∧
        s.dia.transitions = b2.dia.transitions)) := by
  refine ⟨⟨⟨?_, rfl⟩,
      fun stream pending => parseLoop_tsource_bad v w k hk stream b rest pending hq⟩,
    ⟨?_, rfl⟩, ?_⟩
  · simp [assign_trans, hq, hk]
  · simp [assign_trans, hq2]
  · intro stream pending hig
    refine ⟨{ b2 with q := [] }, ?_, rfl⟩
    rw [parseLoop_ignored_flush b2 (pending + 1) stream hig]
    simp [flushPending, hq2, isActionable, actionKinds, dispatch, assign_trans]

/-- Witness for `malformed_transition_aborts`: buffer
`[(TSOURCE, "A"), (STATE, "B")]` for the wrong-kind case and buffer
`[(TSOURCE, "C")]` for the dangling-source case. -/
theorem malformed_transition_aborts_witness :
    ((assign_trans { q := [(TokKind.TSOURCE, "A"), (TokKind.STATE, "B")], dia := {},
                     heap := [], superstate_stack := [none] }
        = .error (PyErr.attributeError,
            { q := [(TokKind.STATE, "B")], dia := {}, heap := [],
              superstate_stack := [none] }) ∧
      ({ q := [(TokKind.STATE, "B")], dia := {}, heap := [],
         superstate_stack := [none] } : BState).dia.transitions
        = ({ q := [(TokKind.TSOURCE, "A"), (TokKind.STATE, "B")], dia := {}, heap := [],
             superstate_stack := [none] } : BState).dia.transitions) ∧
    (∀ (stream : List Tok) (pending : Nat),
      ∃ s, parseLoop { q := [(TokKind.TSOURCE, "A"), (TokKind.STATE, "B")], dia := {},
                       heap := [], superstate_stack := [none] } (pending + 1) stream
          = .error (PyErr.attributeError, s) ∧
        s.dia.transitions = [])) ∧
    ((assign_trans { q := [(TokKind.TSOURCE, "C")], dia := {}, heap := [],
                     superstate_stack := [none] }
        = .error (PyErr.indexError,
            { q := [], dia := {}, heap := [], superstate_stack := [none] }) ∧
      ({ q := [], dia := {}, heap := [], superstate_stack := [none] } : BState).dia.transitions
        = ({ q := [(TokKind.TSOURCE, "C")], dia := {}, heap := [],
             superstate_stack := [none] } : BState).dia.transitions) ∧
    (∀ (stream : List Tok) (pending : Nat), (∀ t ∈ stream, ignoredTok t.1 = true) →
      ∃ s, parseLoop { q := [(TokKind.TSOURCE, "C")], dia := {}, heap := [],
                       superstate_stack := [none] } (pending + 1) stream
          = .error (PyErr.indexError, s) ∧
        s.dia.transitions = [])) :=
  malformed_transition_aborts
    { q := [(TokKind.TSOURCE, "A"), (TokKind.STATE, "B")], dia := {},
      heap := [], superstate_stack := [none] }
    "A" "B" TokKind.STATE [] rfl (by decide)
    { q := [(TokKind.TSOURCE, "C")], dia := {}, heap := [],
      superstate_stack := [none] }
    "C" rfl

theorem tableLookup_updTable_self (t : List (TokKind × Nat)) (k : TokKind) (v : Nat) :
    tableLookup (updTable t k v) k = some v := by
  induction t with
  | nil => simp [updTable, tableLookup]
  | cons e rest ih =>
    by_cases h : e.1 = k
    · simp [updTable, h, tableLookup]
    · simp [updTable, h, tableLookup, ih]

theorem tableLookup_updTable_other (t : List (TokKind × Nat)) (k k2 : TokKind) (v : Nat)
    (h : k2 ≠ k) : tableLookup (updTable t k v) k2 = tableLookup t k2 := by
  have hkk2 : ¬(k = k2) := fun hx => h hx.symm
  induction t with
  | nil => simp [updTable, tableLookup, hkk2]
  | cons e rest ih =>
    by_cases he : e.1 = k
    · have he2 : ¬(e.1 = k2) := fun hx => h (hx ▸ he)
      simp [updTable, he, tableLookup, hkk2, he2]
    · by_cases he2 : e.1 = k2
      · simp [updTable, he, tableLookup, he2, h, hkk2]
      · simp [updTable, he, tableLookup, he2, ih]

theorem getD_append_lt_any {α : Type} (l : List α) (x : α) (i : Nat) (d : α)
    (hi : i < l.length) : (l ++ [x]).getD i d = l.getD i d := by
  induction l generalizing i with
  | nil => cases hi
  | cons a rest ih =>
    cases i with
    | zero => rfl
    | succ n => simpa using ih n (by simpa using hi)

/-- Claim C7, counterexample.  The claim says no mutable state is shared
between two `StateModelBuilder` instances and that constructing one does
not change a parse run on the other.  The class-level `action_tokens` dict
is rebound to each newly constructed instance: on the stream
`[*]`-free stream `A→B, C→D`, a world with one builder parses successfully
(two transitions), while after constructing a second builder the *same*
parse on the first instance dispatches to the second instance's handlers —
which pop from the second instance's empty deque — and raises
`IndexError`. -/
theorem class_table_crosstalk :
    (∃ wr : World,
      parseW (mkStateModelBuilder {}).1 0
        [(TokKind.TSOURCE, "A"), (TokKind.TDEST, "B"),
         (TokKind.TSOURCE, "C"), (TokKind.TDEST, "D")] = .ok wr ∧
      (getInstB wr 0).dia.transitions.length = 2) ∧
    errOfW (parseW (mkStateModelBuilder (mkStateModelBuilder {}).1).1 0
        [(TokKind.TSOURCE, "A"), (TokKind.TDEST, "B"),
         (TokKind.TSOURCE, "C"), (TokKind.TDEST, "D")])
      = some PyErr.indexError :=
  ⟨⟨_, rfl, rfl⟩, rfl⟩

theorem getD_append_self_any {α : Type} (l : List α) (x : α) (d : α) :
    (l ++ [x]).getD l.length d = x := by
  induction l with
  | nil => rfl
  | cons a rest ih => exact ih

theorem tableLookup_mk4 (t : List (TokKind × Nat)) (n : Nat) (k : TokKind)
    (hk : isActionable k = true) :
    tableLookup (actionKinds.foldl (fun tt kk => updTable tt kk n) t) k = some n := by
  have hmem : k = TokKind.STATE ∨ k = TokKind.SALIAS ∨ k = TokKind.SEND ∨
      k = TokKind.TSOURCE := by simpa [isActionable, actionKinds] using hk
  simp only [actionKinds, List.foldl]
  rcases hmem with rfl | rfl | rfl | rfl
  · rw [tableLookup_updTable_other _ _ _ _ (show TokKind.STATE ≠ TokKind.TSOURCE by decide),
        tableLookup_updTable_other _ _ _ _ (show TokKind.STATE ≠ TokKind.SEND by decide),
        tableLookup_updTable_other _ _ _ _ (show TokKind.STATE ≠ TokKind.SALIAS by decide),
        tableLookup_updTable_self]
  · rw [tableLookup_updTable_other _ _ _ _ (show TokKind.SALIAS ≠ TokKind.TSOURCE by decide),
        tableLookup_updTable_other _ _ _ _ (show TokKind.SALIAS ≠ TokKind.SEND by decide),
        tableLookup_updTable_self]
  · rw [tableLookup_updTable_other _ _ _ _ (show TokKind.SEND ≠ TokKind.TSOURCE by decide),
        tableLookup_updTable_self]
  · rw [tableLookup_updTable_self]

/-- Claim C7 (amended).  The token buffer and scope stack are per-instance:
constructing a second builder leaves the first instance's state (deque,
model, scope stack) untouched, and a freshly constructed instance starts
with an empty deque and the sentinel scope stack.  But the per-kind
action-handler table is a *class-level* dict rebound on every
construction, so after a second builder is constructed every registered
kind dispatches to the second instance, and a parse run on the first
instance invokes the second instance's handlers (see the counterexample
for the resulting behaviour change). -/
theorem class_table_rebinding (w : World) :
    (∀ k : TokKind, isActionable k = true →
      tableLookup (mkStateModelBuilder (mkStateModelBuilder w).1).1.classTable k
        = some (mkStateModelBuilder (mkStateModelBuilder w).1).2) ∧
    (mkStateModelBuilder (mkStateModelBuilder w).1).2 ≠ (mkStateModelBuilder w).2 ∧
    getInstB (mkStateModelBuilder (mkStateModelBuilder w).1).1 (mkStateModelBuilder w).2
      = getInstB (mkStateModelBuilder w).1 (mkStateModelBuilder w).2 ∧
    getInstB (mkStateModelBuilder w).1 (mkStateModelBuilder w).2 = initBuilder := by
  refine ⟨?_, ?_, ?_, ?_⟩
  · intro k hk
    simp only [mkStateModelBuilder]
    exact tableLookup_mk4 _ _ k hk
  · simp [mkStateModelBuilder]
  · simp only [mkStateModelBuilder, getInstB]
    rw [getD_append_lt_any _ _ _ _ (by simp)]
  · simp only [mkStateModelBuilder, getInstB]
    exact getD_append_self_any _ _ _

/-- Witness for `class_table_rebinding` at the empty world and kind
`STATE`: after two constructions the class table sends `STATE` to the
second instance (index 1), the indices differ, and instance 0 is the
untouched fresh builder. -/
theorem class_table_rebinding_witness :
    (isActionable TokKind.STATE = true ∧
      tableLookup (mkStateModelBuilder (mkStateModelBuilder {}).1).1.classTable TokKind.STATE
        = some (mkStateModelBuilder (mkStateModelBuilder {}).1).2) ∧
    (mkStateModelBuilder (mkStateModelBuilder {}).1).2 ≠ (mkStateModelBuilder {}).2 ∧
    getInstB (mkStateModelBuilder (mkStateModelBuilder {}).1).1 (mkStateModelBuilder {}).2
      = getInstB (mkStateModelBuilder {}).1 (mkStateModelBuilder {}).2 ∧
    getInstB (mkStateModelBuilder {}).1 (mkStateModelBuilder {}).2 = initBuilder :=
  ⟨⟨rfl, (class_table_rebinding {}).1 TokKind.STATE rfl⟩,
   (class_table_rebinding {}).2.1, (class_table_rebinding {}).2.2.1,
   (class_table_rebinding {}).2.2.2⟩

theorem mem_edges_stitchNode (h : Heap) (sd : StateD) (e : StateId × StateId)
    (fl : Diagram) (s : StateId) (he : e ∈ fl.edges) :
    e ∈ (stitchNode h sd fl s).edges := by
  have hsrc : ∀ (g : Diagram), e ∈ g.edges →
      e ∈ (sd.source.foldl (fun g src => addEdgeG g src s) g).edges :=
    fun g hg => foldl_preserve (fun g => e ∈ g.edges) _
      (fun b a hb => mem_edges_addEdgeG b a s e hb) _ g hg
  have hdst : ∀ (g : Diagram), e ∈ g.edges →
      e ∈ (sd.destination.foldl (fun g dd => addEdgeG g s dd) g).edges :=
    fun g hg => foldl_preserve (fun g => e ∈ g.edges) _
      (fun b a hb => mem_edges_addEdgeG b s a e hb) _ g hg
  simp only [stitchNode]
  split
  · split
    · exact hdst _ (hsrc _ he)
    · exact hdst _ he
  · split
    · exact hsrc _ he
    · exact he

theorem mem_nodes_stitchNode (h : Heap) (sd : StateD) (m : StateId)
    (fl : Diagram) (s : StateId) (hm : m ∈ fl.nodes) :
    m ∈ (stitchNode h sd fl s).nodes := by
  have hsrc : ∀ (g : Diagram), m ∈ g.nodes →
      m ∈ (sd.source.foldl (fun g src => addEdgeG g src s) g).nodes :=
    fun g hg => foldl_preserve (fun g => m ∈ g.nodes) _
      (fun b a hb => mem_nodes_addEdgeG b a s m hb) _ g hg
  have hdst : ∀ (g : Diagram), m ∈ g.nodes →
      m ∈ (sd.destination.foldl (fun g dd => addEdgeG g s dd) g).nodes :=
    fun g hg => foldl_preserve (fun g => m ∈ g.nodes) _
      (fun b a hb => mem_nodes_addEdgeG b s a m hb) _ g hg
  simp only [stitchNode]
  split
  · split
    · exact hdst _ (hsrc _ hm)
    · exact hdst _ hm
  · split
    · exact hsrc _ hm
    · exact hm

theorem stitchNode_adds_start (h : Heap) (sd : StateD) (fl : Diagram) (s : StateId)
    (hstart : localStart (h.getD s default) = true) (src : StateId)
    (hsrc : src ∈ sd.source) : (src, s) ∈ (stitchNode h sd fl s).edges := by
  simp only [stitchNode, hstart, if_true]
  have hbase : (src, s) ∈ (sd.source.foldl (fun g sr => addEdgeG g sr s) fl).edges :=
    foldl_establish (fun g => (src, s) ∈ g.edges) _
      (fun b a hb => mem_edges_addEdgeG b a s _ hb) src
      (fun b => mem_edges_addEdgeG_self b src s) sd.source hsrc fl
  split
  · exact foldl_preserve (fun g => (src, s) ∈ g.edges) _
      (fun b a hb => mem_edges_addEdgeG b s a _ hb) _ _ hbase
  · exact hbase

theorem stitchNode_adds_end (h : Heap) (sd : StateD) (fl : Diagram) (s : StateId)
    (hend : localEnd (h.getD s default) = true) (dd : StateId)
    (hdd : dd ∈ sd.destination) : (s, dd) ∈ (stitchNode h sd fl s).edges := by
  simp only [stitchNode, hend, if_true]
  exact foldl_establish (fun g => (s, dd) ∈ g.edges) _
    (fun b a hb => mem_edges_addEdgeG b s a _ hb) dd
    (fun b => mem_edges_addEdgeG_self b s dd) sd.destination hdd _

theorem stitchAndCollapse_start (h : Heap) (sd : StateD) (st : StateId) (sub : Diagram)
    (flat : Diagram) (s : StateId) (hs : s ∈ sub.nodes)
    (hstart : localStart (h.getD s default) = true) (src : StateId)
    (hsrc : src ∈ sd.source) (h1 : src ≠ st) (h2 : s ≠ st) :
    (src, s) ∈ (stitchAndCollapse h sd st sub flat).edges := by
  unfold stitchAndCollapse
  refine mem_edges_removeNodeG _ _ _ ?_ h1 h2
  refine mem_edges_addEdgesFromG _ _ _ ?_
  exact foldl_establish (fun g => (src, s) ∈ g.edges) (stitchNode h sd)
    (fun b a hb => mem_edges_stitchNode h sd _ b a hb) s
    (fun b => stitchNode_adds_start h sd b s hstart src hsrc) sub.nodes hs flat

theorem stitchAndCollapse_end (h : Heap) (sd : StateD) (st : StateId) (sub : Diagram)
    (flat : Diagram) (s : StateId) (hs : s ∈ sub.nodes)
    (hend : localEnd (h.getD s default) = true) (dd : StateId)
    (hdd : dd ∈ sd.destination) (h1 : s ≠ st) (h2 : dd ≠ st) :
    (s, dd) ∈ (stitchAndCollapse h sd st sub flat).edges := by
  unfold stitchAndCollapse
  refine mem_edges_removeNodeG _ _ _ ?_ h1 h2
  refine mem_edges_addEdgesFromG _ _ _ ?_
  exact foldl_establish (fun g => (s, dd) ∈ g.edges) (stitchNode h sd)
    (fun b a hb => mem_edges_stitchNode h sd _ b a hb) s
    (fun b => stitchNode_adds_end h sd b s hend dd hdd) sub.nodes hs flat

/-- Claim C1 (confirmed).  On the fixture (`A → B`, `B` a superstate holding
exactly `X → Y`, `B.destination = ds` with `B ∉ ds`), `flatten_graph`
yields a graph with the stitched edge `A → X`, an edge `Y → d` for every
recorded outgoing destination `d` of `B`, the internal edge `X → Y`, `B`
removed, and `X`, `Y` present.  More generally, the per-superstate
collapse step adds, for every locally-start node of the flattened child,
an edge from each of the superstate's recorded incoming sources, and for
every locally-end node an edge to each recorded outgoing destination,
before the superstate node is removed (edges not incident to the
superstate survive the removal). -/
theorem flatten_superstate_stitching (ds : List Nat) (hds : (1 : Nat) ∉ ds) :
    ((0, 2) ∈ (flatten_graph 2 (c1heap ds) c1dia).edges ∧
     (∀ dd ∈ ds, (3, dd) ∈ (flatten_graph 2 (c1heap ds) c1dia).edges) ∧
     (2, 3) ∈ (flatten_graph 2 (c1heap ds) c1dia).edges ∧
     1 ∉ (flatten_graph 2 (c1heap ds) c1dia).nodes ∧
     2 ∈ (flatten_graph 2 (c1heap ds) c1dia).nodes ∧
     3 ∈ (flatten_graph 2 (c1heap ds) c1dia).nodes) ∧
    (∀ (h : Heap) (sd : StateD) (st : StateId) (sub : Diagram) (flat : Diagram),
      (∀ s ∈ sub.nodes, localStart (h.getD s default) = true →
        ∀ src ∈ sd.source, src ≠ st → s ≠ st →
          (src, s) ∈ (stitchAndCollapse h sd st sub flat).edges) ∧
      (∀ s ∈ sub.nodes, localEnd (h.getD s default) = true →
        ∀ dd ∈ sd.destination, s ≠ st → dd ≠ st →
          (s, dd) ∈ (stitchAndCollapse h sd st sub flat).edges)) := by
  have heq : flatten_graph 2 (c1heap ds) c1dia
      = removeNodeG (addEdgesFromG
          (List.foldl (fun g dd => addEdgeG g 3 dd)
            { nodes := [0, 1, 2], edges := [(0, 1), (0, 2)] } ds) [(2, 3)]) 1 := rfl
  have hpds : ∀ (e : StateId × StateId),
      e ∈ ({ nodes := [0, 1, 2], edges := [(0, 1), (0, 2)] } : Diagram).edges →
      ∀ (g0 : Diagram), e ∈ g0.edges →
      e ∈ (List.foldl (fun g dd => addEdgeG g 3 dd) g0 ds).edges :=
    fun e _ g0 hg0 => foldl_preserve (fun g => e ∈ g.edges) _
      (fun b a hb => mem_edges_addEdgeG b 3 a e hb) ds g0 hg0
  constructor
  · refine ⟨?_, ?_, ?_, ?_, ?_, ?_⟩
    · rw [heq]
      refine mem_edges_removeNodeG _ _ _ ?_ (by decide) (by decide)
      refine mem_edges_addEdgesFromG _ _ _ ?_
      exact hpds (0, 2) (by decide) _ (by decide)
    · intro dd hdd
      rw [heq]
      refine mem_edges_removeNodeG _ _ _ ?_ ?_ ?_
      · refine mem_edges_addEdgesFromG _ _ _ ?_
        exact foldl_establish (fun g => (3, dd) ∈ g.edges) _
          (fun b a hb => mem_edges_addEdgeG b 3 a _ hb) dd
          (fun b => mem_edges_addEdgeG_self b 3 dd) ds hdd _
      · simp
      · intro hx
        simp only [] at hx
        exact hds (by rw [← show dd = 1 from hx]; exact hdd)
    · rw [heq]
      refine mem_edges_removeNodeG _ _ _ ?_ (by decide) (by decide)
      exact mem_edges_addEdgesFromG_of_mem _ _ _ (by decide)
    · rw [heq]
      exact not_mem_nodes_removeNodeG _ _
    · rw [heq]
      refine mem_nodes_removeNodeG _ _ _ ?_ (by decide)
      refine mem_nodes_addEdgesFromG _ _ _ ?_
      exact foldl_preserve (fun g => 2 ∈ g.nodes) _
        (fun b a hb => mem_nodes_addEdgeG b 3 a 2 hb) ds
        { nodes := [0, 1, 2], edges := [(0, 1), (0, 2)] } (by decide)
    · rw [heq]
      refine mem_nodes_removeNodeG _ _ _ ?_ (by decide)
      exact mem_nodes_addEdgesFromG_snd _ _ (2, 3) (by decide)
  · intro h sd st sub flat
    refine ⟨?_, ?_⟩
    · intro s hs hstart src hsrc h1 h2
      exact stitchAndCollapse_start h sd st sub flat s hs hstart src hsrc h1 h2
    · intro s hs hend dd hdd h1 h2
      exact stitchAndCollapse_end h sd st sub flat s hs hend dd hdd h1 h2

/-- Witness for `flatten_superstate_stitching` at `ds = [4]`. -/
theorem flatten_superstate_stitching_witness :
    ((0, 2) ∈ (flatten_graph 2 (c1heap [4]) c1dia).edges ∧
     (∀ dd ∈ [(4 : Nat)], (3, dd) ∈ (flatten_graph 2 (c1heap [4]) c1dia).edges) ∧
     (2, 3) ∈ (flatten_graph 2 (c1heap [4]) c1dia).edges ∧
     1 ∉ (flatten_graph 2 (c1heap [4]) c1dia).nodes ∧
     2 ∈ (flatten_graph 2 (c1heap [4]) c1dia).nodes ∧
     3 ∈ (flatten_graph 2 (c1heap [4]) c1dia).nodes) ∧
    (∀ (h : Heap) (sd : StateD) (st : StateId) (sub : Diagram) (flat : Diagram),
      (∀ s ∈ sub.nodes, localStart (h.getD s default) = true →
        ∀ src ∈ sd.source, src ≠ st → s ≠ st →
          (src, s) ∈ (stitchAndCollapse h sd st sub flat).edges) ∧
      (∀ s ∈ sub.nodes, localEnd (h.getD s default) = true →
        ∀ dd ∈ sd.destination, s ≠ st → dd ≠ st →
          (s, dd) ∈ (stitchAndCollapse h sd st sub flat).edges)) :=
  flatten_superstate_stitching [4] (by decide)
